import Mathlib

/-!
Verification of the e-libro-updater catalog-synchronization job.

The development shallowly embeds the two core source functions:

* `src/src/libs/Book.js` — `fixSubtitles` and `getBook`, the per-record
  XML-to-struct parser.  The DOM layer is abstracted into explicit element
  structures (`PersonElem`, `SubjectElem`, `FileElem`, …): an `Option` field is
  `none` exactly when the corresponding element (or attribute) is absent from
  the document, mirroring `getElementsByTagNameNS(...)[0]` returning
  `undefined`.  A JavaScript property access on `undefined` (a thrown
  `TypeError`) is modelled as `Except.error ()`.
* the main script — `mapBookToBookResponseDTO`, the record-to-storage mapper,
  and (modelled from the spec, the store itself being external) the
  upsert-by-external-identifier operation on the store.
-/

namespace ELibro

/-! ### Characters and strings

Helpers mirroring the JavaScript string primitives used by the source:
`String.prototype.replace` with the global regex
`LINE_BREAK_PATTERN = /[ \t]*[\n\r]+[ \t]*/g`, `String.prototype.startsWith`,
`String.prototype.includes`, and `parseInt(s, 10)`. -/

/-- `[ \t]` of `LINE_BREAK_PATTERN`. -/
def isSpTab (c : Char) : Bool :=
  c == ' ' || c == '\t'

/-- `[\n\r]` of `LINE_BREAK_PATTERN`. -/
def isBrkChar (c : Char) : Bool :=
  c == '\n' || c == '\r'

/-- Scanner mode while replacing matches of `[ \t]*[\n\r]+[ \t]*`:
`text p` is outside a match with a pending run `p` of spaces/tabs (which will
belong to the next match if a line break follows), `brk` is inside the
`[\n\r]+` part of a match, `post` is inside the trailing `[ \t]*` part. -/
inductive RbMode where
  | text : List Char → RbMode
  | brk : RbMode
  | post : RbMode

/-- Left-to-right global replacement of `[ \t]*[\n\r]+[ \t]*` by `r`,
with the leftmost-match, greedy semantics of the JavaScript regex engine. -/
def rbGo (r : List Char) : RbMode → List Char → List Char
  | RbMode.text p, [] => p
  | RbMode.brk, [] => []
  | RbMode.post, [] => []
  | RbMode.text p, c :: cs =>
    if isSpTab c then rbGo r (RbMode.text (p ++ [c])) cs
    else if isBrkChar c then r ++ rbGo r RbMode.brk cs
    else p ++ c :: rbGo r (RbMode.text []) cs
  | RbMode.brk, c :: cs =>
    if isBrkChar c then rbGo r RbMode.brk cs
    else if isSpTab c then rbGo r RbMode.post cs
    else c :: rbGo r (RbMode.text []) cs
  | RbMode.post, c :: cs =>
    if isSpTab c then rbGo r RbMode.post cs
    else if isBrkChar c then r ++ rbGo r RbMode.brk cs
    else c :: rbGo r (RbMode.text []) cs

/-- `s.replace(LINE_BREAK_PATTERN, r)` where
`LINE_BREAK_PATTERN = /[ \t]*[\n\r]+[ \t]*/g`. Because the regex carries the
`g` flag, `String.prototype.replace` replaces every match, and any extra
arguments passed to `replace` are ignored by JavaScript. -/
def jsReplaceLineBreaks (s : String) (r : String) : String :=
  ⟨rbGo r.data (RbMode.text []) s.data⟩

/-- `fixSubtitles` from `src/src/libs/Book.js`:
`title.replace(LINE_BREAK_PATTERN, ": ", 1)` followed by
`.replace(LINE_BREAK_PATTERN, "; ")`.  The third argument `1` of the first
call does not exist in the JavaScript API and is ignored, so the first call
already replaces every match (the pattern is global). -/
def fixSubtitles (title : String) : String :=
  let newTitle := jsReplaceLineBreaks title ": "
  jsReplaceLineBreaks newTitle "; "

/-- `p.isPrefixOf s` on character lists; model of `String.prototype.startsWith`. -/
def strStarts (s pre : String) : Bool :=
  pre.data.isPrefixOf s.data

/-- Auxiliary scan for `strContains`. -/
def containsAux (pat : List Char) : List Char → Bool
  | [] => pat.isEmpty
  | c :: cs => pat.isPrefixOf (c :: cs) || containsAux pat cs

/-- Model of `String.prototype.includes`: `pat` occurs as a contiguous
substring of `s`. -/
def strContains (s pat : String) : Bool :=
  containsAux pat.data s.data

/-- Longest digit prefix interpreted in base 10, `none` when there is no
leading digit (JavaScript `NaN`). -/
def digitsVal (cs : List Char) : Option Nat :=
  let ds := cs.takeWhile Char.isDigit
  if ds.isEmpty then none
  else some (ds.foldl (fun acc c => acc * 10 + (c.toNat - 48)) 0)

/-- Model of `parseInt(s, 10)`: skip leading whitespace, optional sign, then
the longest digit prefix; `none` models `NaN`.  (JavaScript also skips a few
exotic Unicode spaces; the catalog data is ASCII.) -/
def parseIntJS (s : String) : Option Int :=
  let cs := s.data.dropWhile fun c =>
    c == ' ' || c == '\t' || c == '\n' || c == '\r' || c == '\x0b' || c == '\x0c'
  match cs with
  | '-' :: rest => (digitsVal rest).map fun n => -(n : Int)
  | '+' :: rest => (digitsVal rest).map fun n => (n : Int)
  | rest => (digitsVal rest).map fun n => (n : Int)

/-! ### The DOM abstraction

One structure per element shape that `getBook` traverses.  Everywhere an
`Option` is `none`, the corresponding child element (or, for `rights` /
`typeElem` / `FileElem.format`, the element itself) is missing from the
document, i.e. the `[0]` indexing of the live-node list yielded
`undefined`. -/

/-- A `dc:creator` or `marcrel:trl` element: optional `pg:name`,
`pg:birthdate`, `pg:deathdate` children (their text content). -/
structure PersonElem where
  name : Option String
  birthdate : Option String
  deathdate : Option String
deriving DecidableEq

/-- A `dc:subject` element: `memberOfResource` is the `rdf:resource`
attribute of the first `dcam:memberOf` child (`none` when there is no such
child; a missing attribute on a present child is an ordinary string that is
not `"dc:LCSH"`), `value` the text of the first `rdf:value` child. -/
structure SubjectElem where
  memberOfResource : Option String
  value : Option String
deriving DecidableEq

/-- A `pg:bookshelf` element: text of its first `rdf:value` child. -/
structure BookshelfElem where
  value : Option String
deriving DecidableEq

/-- A `pg:file` element: `format` is `none` when there is no `dc:format`
child at all (so `[0].getElementsByTagNameNS` throws), `some v` when the
child exists with `v` the optional text of its first `rdf:value`; `url` is
the `rdf:about` attribute. -/
structure FileElem where
  format : Option (Option String)
  url : String
deriving DecidableEq

/-- A `dc:language` element: text of its first `rdf:value` child (`none`
when absent, in which case `.textContent` throws). -/
structure LangElem where
  value : Option String
deriving DecidableEq

/-- The single `pgterms:ebook` element of a well-formed record document,
with every node list `getBook` reads, in document order. `typeElem` follows
the same convention as `FileElem.format`: `none` when the document has no
`dc:type` element (so the chained lookup throws), `some v` with `v` the
optional text of its first `rdf:value`. -/
structure BookElem where
  creators : List PersonElem
  translators : List PersonElem
  title : Option String
  subjects : List SubjectElem
  bookshelves : List BookshelfElem
  rights : Option String
  files : List FileElem
  typeElem : Option (Option String)
  languages : List LangElem
deriving DecidableEq

/-! ### The parsed Work Record -/

/-- An entry of `result.authors` / `result.translators`: `birth`/`death` are
`none` when the element was absent (JavaScript `null`), `some none` when
`parseInt` returned `NaN`, `some (some n)` otherwise. -/
structure Person where
  name : String
  birth : Option (Option Int)
  death : Option (Option Int)
deriving DecidableEq

/-- An entry of `result.formats`. -/
structure Format where
  contentType : String
  url : String
deriving DecidableEq

/-- The record built by `getBook`.  `subjects` entries are `Option String`
because the source pushes the (possibly `undefined`) value of an LCSH
subject without checking it; `copyright` is the tri-state flag
(`none` = `null`). -/
structure BookRecord where
  id : Int
  title : Option String
  authors : List Person
  translators : List Person
  type : String
  subjects : List (Option String)
  languages : List String
  formats : List Format
  bookshelves : List String
  copyright : Option Bool
deriving DecidableEq

/-! ### getBook, piecewise -/

/-- The body of the creators/translators `forEach`: skip when the `pg:name`
child is absent, otherwise build the person with optionally parsed
birth/death years. -/
def getPerson (p : PersonElem) : Option Person :=
  match p.name with
  | none => none
  | some n =>
    some { name := n, birth := p.birthdate.map parseIntJS, death := p.deathdate.map parseIntJS }

/-- The `dc:rights` classification of `getBook`: two `startsWith` tests,
otherwise `null`. -/
def classifyCopyright (rightsText : String) : Option Bool :=
  if strStarts rightsText "Public domain in the USA." then some false
  else if strStarts rightsText "Copyrighted." then some true
  else none

/-- The body of the subjects `forEach`: skip when there is no
`dcam:memberOf` child; when the `rdf:resource` attribute equals
`"dc:LCSH"`, push the (possibly undefined) `rdf:value` text. -/
def subjectStep (acc : List (Option String)) (s : SubjectElem) : List (Option String) :=
  match s.memberOfResource with
  | none => acc
  | some scheme => if scheme == "dc:LCSH" then acc ++ [s.value] else acc

/-- The subjects `forEach` loop. -/
def subjectsLoop (subs : List SubjectElem) (acc : List (Option String)) : List (Option String) :=
  match subs with
  | [] => acc
  | s :: rest => subjectsLoop rest (subjectStep acc s)

/-- Lexicographic comparison of character lists by code point, the order the
JavaScript default sort comparator induces on (BMP) strings compared as
UTF-16 code-unit sequences. -/
def charListLe : List Char → List Char → Bool
  | [], _ => true
  | _ :: _, [] => false
  | a :: as, b :: bs =>
    if a.toNat < b.toNat then true
    else if a.toNat = b.toNat then charListLe as bs
    else false

/-- String comparison used by the model of `Array.prototype.sort()`. -/
def strLe (a b : String) : Bool :=
  charListLe a.data b.data

/-- `Array.prototype.sort()` with the default comparator on an array of
strings and `undefined` holes: `undefined` entries are moved to the end, the
strings are sorted ascending by `strLe`. The sort is modelled by Mathlib's
stable `insertionSort`. -/
def jsSort (l : List (Option String)) : List (Option String) :=
  ((List.insertionSort (fun a b : String => strLe a b = true) (l.filterMap id)).map some)
    ++ List.replicate (l.countP fun x => x.isNone) none

/-- One iteration of the files `forEach`: throws when the `pg:file` has no
`dc:format` child; otherwise pushes `(contentType, url)` when the content
type value is truthy and the source's keep condition
`!formats.some(sameType) || formats.some(sameType && url.includes("noimages"))`
holds. -/
def formatStep (acc : List Format) (f : FileElem) : Except Unit (List Format) :=
  match f.format with
  | none => Except.error ()
  | some none => Except.ok acc
  | some (some ct) =>
    if (!(acc.any fun fo => fo.contentType == ct))
        || (acc.any fun fo => fo.contentType == ct && strContains fo.url "noimages") then
      Except.ok (acc ++ [{ contentType := ct, url := f.url }])
    else
      Except.ok acc

/-- The files `forEach` loop. -/
def formatsLoop (files : List FileElem) (acc : List Format) : Except Unit (List Format) :=
  match files with
  | [] => Except.ok acc
  | f :: rest =>
    match formatStep acc f with
    | Except.error e => Except.error e
    | Except.ok acc2 => formatsLoop rest acc2

/-- The languages `forEach` loop: pushes the `rdf:value` text of every
`dc:language` element, throwing when the value child is absent. -/
def languagesLoop (ls : List LangElem) (acc : List String) : Except Unit (List String) :=
  match ls with
  | [] => Except.ok acc
  | l :: rest =>
    match l.value with
    | none => Except.error ()
    | some t => languagesLoop rest (acc ++ [t])

/-- `getBook` from `src/src/libs/Book.js`, after XML parsing: the caller
(the orchestrator) passes a numeric directory name, whose parsed integer is
`id` here.  Field extraction in document/source order; the fallible steps
(rights text, file formats, type element, language values) are sequenced in
the order the source executes them. -/
def getBook (id : Int) (book : BookElem) : Except Unit BookRecord :=
  let authors := book.creators.filterMap getPerson
  let translators := book.translators.filterMap getPerson
  let title := book.title.map fixSubtitles
  let subjects := jsSort (subjectsLoop book.subjects [])
  let bookshelves := book.bookshelves.filterMap BookshelfElem.value
  match book.rights with
  | none => Except.error ()
  | some rightsText =>
    match formatsLoop book.files [] with
    | Except.error e => Except.error e
    | Except.ok formats =>
      match book.typeElem with
      | none => Except.error ()
      | some tv =>
        match languagesLoop book.languages [] with
        | Except.error e => Except.error e
        | Except.ok languages =>
          Except.ok {
            id := id
            title := title
            authors := authors
            translators := translators
            type := tv.getD "Text"
            subjects := subjects
            languages := languages
            formats := formats
            bookshelves := bookshelves
            copyright := classifyCopyright rightsText }

/-! ### The record-to-storage mapper -/

/-- The `BookDTO` class of the main script.  `bookShelves` is an `Option`
because the mapper populates it from a property read that can yield
`undefined`; `downloads` is commented out in the source and absent here. -/
structure BookDTO where
  gutenbergId : Int
  title : Option String
  authors : List Person
  translators : List Person
  type : String
  subjects : List (Option String)
  languages : List String
  formats : List Format
  bookShelves : Option (List String)
  copyright : Option Bool
deriving DecidableEq

/-- `mapBookToBookResponseDTO` from the main script: throws
`"Book entity is required"` on a falsy input (a parsed record object is
always truthy, so only `null`/`undefined` — `none` here — fail), otherwise
copies field by field.  The source reads `book.bookShelves`, but the record
built by `getBook` names that field `bookshelves`, so the property read
yields `undefined` (`none`). -/
def mapBookToBookResponseDTO (book : Option BookRecord) : Except Unit BookDTO :=
  match book with
  | none => Except.error ()
  | some b =>
    Except.ok {
      gutenbergId := b.id
      title := b.title
      authors := b.authors
      translators := b.translators
      type := b.type
      subjects := b.subjects
      languages := b.languages
      formats := b.formats
      bookShelves := none
      copyright := b.copyright }

/-- `isOk` test on our `Except`. -/
def isOkE {α : Type} (e : Except Unit α) : Bool :=
  match e with
  | Except.ok _ => true
  | Except.error _ => false

/-! ### The store upsert

Modelled from the spec: the persistent store and the
`findOneAndUpdate(filter, dto, upsert)` operation live in the external
database layer (mongoose), outside the repository's sources; per §3 and the
glossary, the operation is "insert-or-update keyed by external identifier;
full field replacement, no merge", updating the one matching document or
inserting the mapped record when none exists. -/

/-- The store as an ordered list of documents; upsert replaces the first
document whose `gutenbergId` matches (full replacement of the mapped
fields), or appends the new document when none matches. -/
def upsertBook (store : List BookDTO) (dto : BookDTO) : List BookDTO :=
  match store with
  | [] => [dto]
  | d :: ds =>
    if d.gutenbergId == dto.gutenbergId then dto :: ds
    else d :: upsertBook ds dto

/-! ### Spec-side predicates and concrete instances -/

/-- The spec's keep rule for formats, written from its words: add the pair
when "no existing formats entry has the same contentType, or some existing
entry has the same contentType and its url contains the substring
noimages". -/
def specKeepFormat (acc : List Format) (ct : String) : Bool :=
  (acc.all fun fo => !(fo.contentType == ct))
    || (acc.any fun fo => fo.contentType == ct && strContains fo.url "noimages")

/-- A well-formed document whose single language element has no value child
(rights present, type element present): counterexample input for the
failure-conditions claim. -/
def bookC2cx : BookElem :=
  { creators := [], translators := [], title := none, subjects := [], bookshelves := [],
    rights := some "Public domain in the USA.", files := [], typeElem := some none,
    languages := [{ value := none }] }

/-- A parsed record carrying one bookshelf label, input for the mapper
claim. -/
def bookRecC3 : BookRecord :=
  { id := 7, title := some "T", authors := [], translators := [], type := "Text",
    subjects := [], languages := [], formats := [], bookshelves := ["Science Fiction"],
    copyright := none }

/-- The DTO the mapper actually builds from `bookRecC3`: note the dropped
bookshelf labels. -/
def dtoC3 : BookDTO :=
  { gutenbergId := 7, title := some "T", authors := [], translators := [],
    type := "Text", subjects := [], languages := [], formats := [],
    bookShelves := none, copyright := none }

/-- A document with no `dc:type` element at all (everything else present):
counterexample input for the default-type claim. -/
def bookC5cx : BookElem :=
  { creators := [], translators := [], title := none, subjects := [], bookshelves := [],
    rights := some "Public domain in the USA.", files := [], typeElem := none,
    languages := [] }

/-- A document whose `dc:type` element has no value child: witness input for
the default-type claim. -/
def bookC5w : BookElem :=
  { creators := [], translators := [], title := none, subjects := [], bookshelves := [],
    rights := some "Copyrighted. All rights reserved.", files := [], typeElem := some none,
    languages := [] }

/-- The record `getBook` builds from `bookC5w`. -/
def recC5w : BookRecord :=
  { id := 5, title := none, authors := [], translators := [], type := "Text",
    subjects := [], languages := [], formats := [], bookshelves := [],
    copyright := some true }

/-- A document whose rights text matches neither prefix: witness input for
the copyright-classification claim. -/
def bookC6w : BookElem :=
  { creators := [], translators := [], title := none, subjects := [], bookshelves := [],
    rights := some "Unknown rights.", files := [], typeElem := some none,
    languages := [] }

/-- The record `getBook` builds from `bookC6w`. -/
def recC6w : BookRecord :=
  { id := 6, title := none, authors := [], translators := [], type := "Text",
    subjects := [], languages := [], formats := [], bookshelves := [],
    copyright := none }

/-- The spec's subject example: two LCSH subjects out of order around a
subject of another scheme. -/
def bookC7w : BookElem :=
  { creators := [], translators := [], title := none,
    subjects := [{ memberOfResource := some "dc:LCSH", value := some "Zebras" },
                 { memberOfResource := some "other", value := some "Ignored" },
                 { memberOfResource := some "dc:LCSH", value := some "Apples" }],
    bookshelves := [], rights := some "Public domain in the USA.", files := [],
    typeElem := some none, languages := [] }

/-- The record `getBook` builds from `bookC7w`. -/
def recC7w : BookRecord :=
  { id := 70, title := none, authors := [], translators := [], type := "Text",
    subjects := [some "Apples", some "Zebras"], languages := [], formats := [],
    bookshelves := [], copyright := some false }

/-- A document with one LCSH subject element having no value child: witness
input for the undefined-subject claim. -/
def bookC10w : BookElem :=
  { creators := [], translators := [], title := none,
    subjects := [{ memberOfResource := some "dc:LCSH", value := none }],
    bookshelves := [], rights := some "Public domain in the USA.", files := [],
    typeElem := some none, languages := [] }

/-- The record `getBook` builds from `bookC10w`. -/
def recC10w : BookRecord :=
  { id := 10, title := none, authors := [], translators := [], type := "Text",
    subjects := [none], languages := [], formats := [], bookshelves := [],
    copyright := some false }

/-- A concrete mapped document for the upsert claim. -/
def dtoC9 : BookDTO :=
  { gutenbergId := 42, title := some "T", authors := [], translators := [],
    type := "Text", subjects := [], languages := ["en"], formats := [],
    bookShelves := none, copyright := some false }

/-- A concrete store holding one other document. -/
def storeC9 : List BookDTO :=
  [{ gutenbergId := 7, title := some "U", authors := [], translators := [],
     type := "Text", subjects := [], languages := [], formats := [],
     bookShelves := none, copyright := none }]

end ELibro

deriving instance DecidableEq for Except

namespace ELibro

/-! ### Helper lemmas -/

/-- De Morgan between `any` and `all`. -/
theorem not_any_eq_all_not {α : Type} (l : List α) (p : α → Bool) :
    (!(l.any p)) = l.all fun a => !(p a) := by
  induction l with
  | nil => rfl
  | cons a l ih => simp [List.any_cons, List.all_cons, Bool.not_or, ih]

/-- `charListLe` is total. -/
theorem charListLe_total : ∀ as bs : List Char, charListLe as bs = true ∨ charListLe bs as = true
  | [], _ => Or.inl rfl
  | _ :: _, [] => Or.inr rfl
  | a :: as, b :: bs => by
    rcases Nat.lt_trichotomy a.toNat b.toNat with h | h | h
    · left
      simp [charListLe, h]
    · rcases charListLe_total as bs with hr | hr
      · left
        simp [charListLe, h, Nat.lt_irrefl, hr]
      · right
        simp [charListLe, h.symm, Nat.lt_irrefl, hr]
    · right
      simp [charListLe, h]

/-- `charListLe` is transitive. -/
theorem charListLe_trans : ∀ as bs cs : List Char,
    charListLe as bs = true → charListLe bs cs = true → charListLe as cs = true
  | [], _, _ => fun _ _ => rfl
  | _ :: _, [], _ => fun h _ => by simp [charListLe] at h
  | _ :: _, _ :: _, [] => fun _ h => by simp [charListLe] at h
  | a :: as, b :: bs, c :: cs => by
    intro h1 h2
    rcases Nat.lt_trichotomy a.toNat b.toNat with hab | hab | hab
    · rcases Nat.lt_trichotomy b.toNat c.toNat with hbc | hbc | hbc
      · have : a.toNat < c.toNat := Nat.lt_trans hab hbc
        simp [charListLe, this]
      · have : a.toNat < c.toNat := hbc ▸ hab
        simp [charListLe, this]
      · rw [charListLe] at h2
        simp [Nat.lt_asymm hbc, Nat.ne_of_gt hbc] at h2
    · rcases Nat.lt_trichotomy b.toNat c.toNat with hbc | hbc | hbc
      · have : a.toNat < c.toNat := hab ▸ hbc
        simp [charListLe, this]
      · have hac : a.toNat = c.toNat := hab.trans hbc
        rw [charListLe] at h1 h2 ⊢
        simp only [hab, hbc, hac, Nat.lt_irrefl, if_false, if_pos rfl, if_neg (Nat.lt_irrefl _)] at h1 h2 ⊢
        exact charListLe_trans as bs cs h1 h2
      · rw [charListLe] at h2
        simp [Nat.lt_asymm hbc, Nat.ne_of_gt hbc] at h2
    · rw [charListLe] at h1
      simp [Nat.lt_asymm hab, Nat.ne_of_gt hab] at h1

/-- The subjects loop appends exactly the values of the subjects whose
vocabulary scheme is `"dc:LCSH"`. -/
theorem subjectsLoop_eq : ∀ (subs : List SubjectElem) (acc : List (Option String)),
    subjectsLoop subs acc =
      acc ++ (subs.filter fun s => s.memberOfResource == some "dc:LCSH").map SubjectElem.value
  | [], acc => by simp [subjectsLoop]
  | s :: rest, acc => by
    rw [subjectsLoop, subjectsLoop_eq rest]
    rcases hm : s.memberOfResource with _ | scheme
    · simp [subjectStep, hm, List.filter_cons]
    · by_cases hs : scheme = "dc:LCSH"
      · subst hs
        simp [subjectStep, hm, List.filter_cons]
      · simp [subjectStep, hm, List.filter_cons, hs]

/-- On a list whose entries are all `some`, the JS sort is the sorted list of
the underlying strings. -/
theorem jsSort_all_some (l : List (Option String)) (h : ∀ x ∈ l, x.isSome = true) :
    jsSort l =
      (List.insertionSort (fun a b => strLe a b = true) (l.filterMap id)).map some := by
  have hc : l.countP (fun x => x.isNone) = 0 := by
    rw [List.countP_eq_zero]
    intro a ha
    have := h a ha
    rcases a with _ | v
    · simp at this
    · simp
  simp [jsSort, hc]

/-- The formats loop succeeds exactly when every file element has a
`dc:format` child. -/
theorem formatsLoop_ok_iff : ∀ (files : List FileElem) (acc : List Format),
    isOkE (formatsLoop files acc) = true ↔ ∀ f ∈ files, f.format.isSome = true
  | [], acc => by simp [formatsLoop, isOkE]
  | f :: rest, acc => by
    rcases hf : f.format with _ | ct
    · simp only [formatsLoop, formatStep, hf, isOkE, List.forall_mem_cons]
      simp [hf]
    · rcases ct with _ | ctv
      · simp only [formatsLoop, formatStep, hf, List.forall_mem_cons]
        rw [formatsLoop_ok_iff rest acc]
        simp [hf]
      · simp only [formatsLoop, formatStep, hf, List.forall_mem_cons]
        rcases hcond : ((!(acc.any fun fo => fo.contentType == ctv))
            || (acc.any fun fo => fo.contentType == ctv && strContains fo.url "noimages")) with _ | _
        · simp only [Bool.false_eq_true, if_false]
          rw [formatsLoop_ok_iff rest acc]
          simp [hf]
        · simp only [if_true]
          rw [formatsLoop_ok_iff rest]
          simp [hf]

/-- The languages loop succeeds exactly when every language element has a
value child. -/
theorem languagesLoop_ok_iff : ∀ (ls : List LangElem) (acc : List String),
    isOkE (languagesLoop ls acc) = true ↔ ∀ l ∈ ls, l.value.isSome = true
  | [], acc => by simp [languagesLoop, isOkE]
  | l :: rest, acc => by
    rcases hv : l.value with _ | t
    · simp only [languagesLoop, hv, isOkE, List.forall_mem_cons]
      simp [hv]
    · simp only [languagesLoop, hv, List.forall_mem_cons]
      rw [languagesLoop_ok_iff rest (acc ++ [t])]
      simp [hv]

/-- Inversion of a successful `getBook` run: the four fallible lookups
succeeded and the record is built field by field as in the source. -/
theorem getBook_ok_elim {id : Int} {book : BookElem} {r : BookRecord}
    (h : getBook id book = Except.ok r) :
    ∃ rt tv fs ls, book.rights = some rt ∧ book.typeElem = some tv ∧
      formatsLoop book.files [] = Except.ok fs ∧
      languagesLoop book.languages [] = Except.ok ls ∧
      r = { id := id
            title := book.title.map fixSubtitles
            authors := book.creators.filterMap getPerson
            translators := book.translators.filterMap getPerson
            type := tv.getD "Text"
            subjects := jsSort (subjectsLoop book.subjects [])
            languages := ls
            formats := fs
            bookshelves := book.bookshelves.filterMap BookshelfElem.value
            copyright := classifyCopyright rt } := by
  rcases hrt : book.rights with _ | rt
  · rw [getBook, hrt] at h
    exact Except.noConfusion h
  · rcases hfs : formatsLoop book.files [] with e | fs
    · rw [getBook, hrt, hfs] at h
      exact Except.noConfusion h
    · rcases htv : book.typeElem with _ | tv
      · rw [getBook, hrt, hfs, htv] at h
        exact Except.noConfusion h
      · rcases hls : languagesLoop book.languages [] with e | ls
        · rw [getBook, hrt, hfs, htv, hls] at h
          exact Except.noConfusion h
        · rw [getBook, hrt, hfs, htv, hls] at h
          refine ⟨rt, tv, fs, ls, rfl, rfl, rfl, rfl, ?_⟩
          injection h with h
          exact h.symm

/-- A string starting with `"Copyrighted."` does not start with
`"Public domain in the USA."`. -/
theorem not_starts_public_of_starts_copyrighted (s : String)
    (h : strStarts s "Copyrighted." = true) :
    strStarts s "Public domain in the USA." = false := by
  unfold strStarts at h ⊢
  generalize hds : s.data = ds at h ⊢
  rcases ds with _ | ⟨c, cs⟩
  · exact absurd h (by decide)
  · have hC : "Copyrighted.".data = 'C' :: "opyrighted.".data := rfl
    rw [hC] at h
    have hcc : ('C' == c && "opyrighted.".data.isPrefixOf cs) = true := h
    have hcC : c = 'C' := by
      simp only [Bool.and_eq_true, beq_iff_eq] at hcc
      exact hcc.1.symm
    subst hcC
    have hP : "Public domain in the USA.".data = 'P' :: "ublic domain in the USA.".data := rfl
    rw [hP]
    show ('P' == 'C' && "ublic domain in the USA.".data.isPrefixOf cs) = false
    rw [show ('P' == 'C') = false from rfl]
    simp

/-- Characterization of the copyright classification: `some false` exactly
on the public-domain prefix, `some true` exactly on the copyrighted prefix,
`none` exactly when neither prefix matches. -/
theorem classifyCopyright_char (s : String) :
    (classifyCopyright s = some false ↔ strStarts s "Public domain in the USA." = true) ∧
    (classifyCopyright s = some true ↔ strStarts s "Copyrighted." = true) ∧
    (classifyCopyright s = none ↔
      (strStarts s "Public domain in the USA." = false ∧ strStarts s "Copyrighted." = false)) := by
  rcases h1 : strStarts s "Public domain in the USA." with _ | _
  · rcases h2 : strStarts s "Copyrighted." with _ | _
    · simp [classifyCopyright, h1, h2]
    · simp [classifyCopyright, h1, h2]
  · have h2 : strStarts s "Copyrighted." = false := by
      rcases h2 : strStarts s "Copyrighted." with _ | _
      · rfl
      · rw [not_starts_public_of_starts_copyrighted s h2] at h1
        exact Bool.noConfusion h1
    simp [classifyCopyright, h1, h2]

/-! ### The claims -/

/-- Claim C1.  The claim states that the first line-break run becomes
`": "` and every later one `"; "`.  The code disagrees: the pattern carries
the `g` flag, so the first `replace` call already rewrites every run to
`": "` (its third argument `1` is ignored by JavaScript), and the second
`replace` finds no line break left.  On the spec's own example the output
has `": "` at both break positions, not `"; "` at the second. -/
theorem claim1_fixSubtitles_all_breaks_become_colon :
    fixSubtitles "Alice\nIn Wonderland\nSecond Edition" =
      "Alice: In Wonderland: Second Edition" ∧
    fixSubtitles "Alice\nIn Wonderland\nSecond Edition" ≠
      "Alice: In Wonderland; Second Edition" :=
  ⟨by decide, by decide⟩

/-- Claim C2, counterexample.  A well-formed document whose rights statement
is present but whose single language element lacks a value child makes
`getBook` throw, refuting "the absence of any other field's elements
(..., language value) never causes getBook to throw". -/
theorem claim2_cx_language_value_throws :
    getBook 1 bookC2cx = Except.error () ∧ bookC2cx.rights.isSome = true :=
  ⟨by decide, by decide⟩

/-- Claim C2, amended.  `getBook` succeeds on a well-formed document exactly
when the rights element is present, every file element has a format child,
the classification (`dc:type`) element is present, and every language
element has a value child; absences of creator names, title, subject parts,
bookshelf values, a format's content-type value, or the classification's
value child never cause a failure. -/
theorem claim2_getBook_ok_iff (id : Int) (book : BookElem) :
    isOkE (getBook id book) = true ↔
      (book.rights.isSome = true ∧ (∀ f ∈ book.files, f.format.isSome = true) ∧
        book.typeElem.isSome = true ∧ ∀ l ∈ book.languages, l.value.isSome = true) := by
  rcases hrt : book.rights with _ | rt
  · rw [getBook, hrt]
    simp [isOkE, hrt]
  · rcases hfs : formatsLoop book.files [] with e | fs
    · have hforall := formatsLoop_ok_iff book.files []
      rw [hfs] at hforall
      simp only [isOkE] at hforall
      rw [getBook, hrt, hfs]
      simp only [isOkE, hrt, Option.isSome_some, true_and]
      simp [← hforall]
    · have hforall := formatsLoop_ok_iff book.files []
      rw [hfs] at hforall
      simp only [isOkE] at hforall
      rcases htv : book.typeElem with _ | tv
      · rw [getBook, hrt, hfs, htv]
        simp [isOkE, htv]
      · rcases hls : languagesLoop book.languages [] with e | ls
        · have hlall := languagesLoop_ok_iff book.languages []
          rw [hls] at hlall
          simp only [isOkE] at hlall
          rw [getBook, hrt, hfs, htv, hls]
          simp only [isOkE, hrt, htv, Option.isSome_some, true_and]
          simp [← hforall, ← hlall]
        · have hlall := languagesLoop_ok_iff book.languages []
          rw [hls] at hlall
          simp only [isOkE] at hlall
          rw [getBook, hrt, hfs, htv, hls]
          simp only [isOkE, hrt, htv, Option.isSome_some, true_and]
          simp [← hforall, ← hlall]

/-- Claim C3.  The claim states every parsed field is carried into the DTO
under the same name (id renamed to gutenbergId), in particular the
bookshelves.  The code disagrees: the mapper reads `book.bookShelves`, a
property the parsed record does not have (the parser names it
`bookshelves`), so the DTO's `bookShelves` is `undefined` and the parsed
bookshelf labels are dropped. -/
theorem claim3_mapper_drops_bookshelves :
    bookRecC3.bookshelves = ["Science Fiction"] ∧
    mapBookToBookResponseDTO (some bookRecC3) = Except.ok dtoC3 ∧
    dtoC3.bookShelves = none :=
  ⟨rfl, rfl, rfl⟩

/-- Claim C4.  A `(contentType, url)` pair is appended exactly when the
content-type value is present and the spec's keep condition holds on the
formats accumulated so far (no same-type entry yet, or a same-type entry
whose url contains "noimages"); when the value is absent nothing is
appended; and two same-type files whose first url contains "noimages" and
second does not are both retained in order. -/
theorem claim4_formats_keep_rule :
    (∀ (acc : List Format) (f : FileElem) (ct : String), f.format = some (some ct) →
      formatStep acc f =
        Except.ok (if specKeepFormat acc ct then acc ++ [{ contentType := ct, url := f.url }]
          else acc)) ∧
    (∀ (acc : List Format) (f : FileElem), f.format = some none →
      formatStep acc f = Except.ok acc) ∧
    (∀ (ct u1 u2 : String), strContains u1 "noimages" = true → strContains u2 "noimages" = false →
      formatsLoop [{ format := some (some ct), url := u1 }, { format := some (some ct), url := u2 }] [] =
        Except.ok [{ contentType := ct, url := u1 }, { contentType := ct, url := u2 }]) := by
  refine ⟨?_, ?_, ?_⟩
  · intro acc f ct hf
    simp only [formatStep, hf]
    have hcond : ((!(acc.any fun fo => fo.contentType == ct))
        || (acc.any fun fo => fo.contentType == ct && strContains fo.url "noimages"))
        = specKeepFormat acc ct := by
      rw [specKeepFormat, not_any_eq_all_not]
    rw [hcond]
    split <;> rfl
  · intro acc f hf
    simp only [formatStep, hf]
  · intro ct u1 u2 h1 h2
    simp [formatsLoop, formatStep, h1]

/-- Claim C4, witness: the two-file example evaluated at concrete urls. -/
theorem claim4_formats_keep_rule_witness :
    strContains "https://g.org/files/1/1-h.noimages" "noimages" = true ∧
    strContains "https://g.org/files/1/1-h.images" "noimages" = false ∧
    formatsLoop [{ format := some (some "text/html"), url := "https://g.org/files/1/1-h.noimages" },
        { format := some (some "text/html"), url := "https://g.org/files/1/1-h.images" }] [] =
      Except.ok [{ contentType := "text/html", url := "https://g.org/files/1/1-h.noimages" },
        { contentType := "text/html", url := "https://g.org/files/1/1-h.images" }] :=
  ⟨by decide, by decide,
    claim4_formats_keep_rule.2.2 "text/html" "https://g.org/files/1/1-h.noimages"
      "https://g.org/files/1/1-h.images" (by decide) (by decide)⟩

/-- Claim C5, counterexample.  A document with no classification (`dc:type`)
element contains no classification-value element either, yet `getBook`
throws instead of returning a record with type `"Text"`. -/
theorem claim5_cx_missing_type_element_throws :
    getBook 1 bookC5cx = Except.error () ∧ bookC5cx.typeElem = none :=
  ⟨by decide, rfl⟩

/-- Claim C5, amended.  On a successful run (which requires the
classification element to be present), the record's type is `"Text"` when
the classification element has no value child and the value's text when it
has one; a document entirely missing the classification element makes
`getBook` throw instead. -/
theorem claim5_type_default (id : Int) (book : BookElem) (r : BookRecord)
    (h : getBook id book = Except.ok r) :
    (book.typeElem = some none → r.type = "Text") ∧
    (∀ v, book.typeElem = some (some v) → r.type = v) := by
  obtain ⟨rt, tv, fs, ls, hrt, htv, hfs, hls, hr⟩ := getBook_ok_elim h
  subst hr
  constructor
  · intro hnone
    rw [htv] at hnone
    injection hnone with hnone
    simp [hnone]
  · intro v hv
    rw [htv] at hv
    injection hv with hv
    simp [hv]

/-- Claim C5, witness: a document whose type element has no value child
yields type `"Text"`. -/
theorem claim5_type_default_witness :
    getBook 5 bookC5w = Except.ok recC5w ∧
    (bookC5w.typeElem = some none → recC5w.type = "Text") :=
  ⟨by decide, (claim5_type_default 5 bookC5w recC5w (by decide)).1⟩

/-- Claim C6.  On a successful run with rights text `s`, the record's
copyright flag is `false` exactly when `s` starts with
`"Public domain in the USA."`, `true` exactly when `s` starts with
`"Copyrighted."`, and `null` exactly when neither prefix matches — prefix
matching at the start of the string, not substring search. -/
theorem claim6_copyright_classification (id : Int) (book : BookElem) (r : BookRecord) (s : String)
    (hr : book.rights = some s) (h : getBook id book = Except.ok r) :
    (r.copyright = some false ↔ strStarts s "Public domain in the USA." = true) ∧
    (r.copyright = some true ↔ strStarts s "Copyrighted." = true) ∧
    (r.copyright = none ↔
      (strStarts s "Public domain in the USA." = false ∧ strStarts s "Copyrighted." = false)) := by
  obtain ⟨rt, tv, fs, ls, hrt, htv, hfs, hls, hrec⟩ := getBook_ok_elim h
  subst hrec
  rw [hr] at hrt
  injection hrt with hrt
  subst hrt
  exact classifyCopyright_char s

/-- Claim C6, witness: a rights text that contains "Copyrighted." nowhere at
the start and matches neither prefix classifies as `null`. -/
theorem claim6_copyright_classification_witness :
    bookC6w.rights = some "Unknown rights." ∧
    getBook 6 bookC6w = Except.ok recC6w ∧
    (recC6w.copyright = none ↔
      (strStarts "Unknown rights." "Public domain in the USA." = false ∧
        strStarts "Unknown rights." "Copyrighted." = false)) :=
  ⟨rfl, by decide,
    (claim6_copyright_classification 6 bookC6w recC6w "Unknown rights." rfl (by decide)).2.2⟩

/-- Claim C8.  The mapper fails exactly on an empty (null/undefined) input
record and returns a DTO on every non-empty one. -/
theorem claim8_mapper_error_iff (b : Option BookRecord) :
    isOkE (mapBookToBookResponseDTO b) = true ↔ b.isSome = true := by
  cases b <;> simp [mapBookToBookResponseDTO, isOkE]

/-- Claim C7.  When every LCSH subject has a value, the record's subjects
are exactly the values of the subjects whose scheme attribute is
`"dc:LCSH"` (subjects of any other scheme, or with no scheme element, are
discarded), as a sorted-ascending list of strings. -/
theorem claim7_subjects_lcsh_sorted (i : Int) (book : BookElem) (r : BookRecord)
    (h : getBook i book = Except.ok r)
    (hv : ∀ s ∈ book.subjects, s.memberOfResource = some "dc:LCSH" → s.value.isSome = true) :
    ∃ strs : List String,
      r.subjects = strs.map some ∧
      strs.Pairwise (fun a b => strLe a b = true) ∧
      strs.Perm ((book.subjects.filter fun s => s.memberOfResource == some "dc:LCSH").filterMap
        SubjectElem.value) := by
  obtain ⟨rt, tv, fs, ls, hrt, htv, hfs, hls, hrec⟩ := getBook_ok_elim h
  subst hrec
  have hall : ∀ x ∈ (book.subjects.filter fun s =>
      s.memberOfResource == some "dc:LCSH").map SubjectElem.value, x.isSome = true := by
    intro x hx
    obtain ⟨s, hsf, hval⟩ := List.mem_map.mp hx
    have hsmem := List.mem_filter.mp hsf
    have hscheme : s.memberOfResource = some "dc:LCSH" := by
      have := hsmem.2
      simpa using this
    exact hval ▸ hv s hsmem.1 hscheme
  refine ⟨List.insertionSort (fun a b => strLe a b = true)
      (((book.subjects.filter fun s => s.memberOfResource == some "dc:LCSH").map
        SubjectElem.value).filterMap id), ?_, ?_, ?_⟩
  · show jsSort (subjectsLoop book.subjects []) = _
    rw [subjectsLoop_eq, List.nil_append]
    exact jsSort_all_some _ hall
  · haveI : IsTotal String (fun a b => strLe a b = true) :=
      ⟨fun a b => charListLe_total a.data b.data⟩
    haveI : IsTrans String (fun a b => strLe a b = true) :=
      ⟨fun a b c => charListLe_trans a.data b.data c.data⟩
    exact List.sorted_insertionSort _ _
  · have hperm := List.perm_insertionSort (fun a b => strLe a b = true)
      (((book.subjects.filter fun s => s.memberOfResource == some "dc:LCSH").map
        SubjectElem.value).filterMap id)
    have heq : (((book.subjects.filter fun s => s.memberOfResource == some "dc:LCSH").map
        SubjectElem.value).filterMap id) =
        (book.subjects.filter fun s => s.memberOfResource == some "dc:LCSH").filterMap
          SubjectElem.value := by
      simp [List.filterMap_map]
    exact heq ▸ hperm

/-- Claim C7, witness: the spec's example, with the non-LCSH subject
discarded and the two LCSH values sorted. -/
theorem claim7_subjects_lcsh_sorted_witness :
    getBook 70 bookC7w = Except.ok recC7w ∧
    (∀ s ∈ bookC7w.subjects, s.memberOfResource = some "dc:LCSH" → s.value.isSome = true) ∧
    recC7w.subjects = [some "Apples", some "Zebras"] ∧
    (∃ strs : List String,
      recC7w.subjects = strs.map some ∧
      strs.Pairwise (fun a b => strLe a b = true) ∧
      strs.Perm ((bookC7w.subjects.filter fun s => s.memberOfResource == some "dc:LCSH").filterMap
        SubjectElem.value)) :=
  ⟨by decide, by decide, by decide,
    claim7_subjects_lcsh_sorted 70 bookC7w recC7w (by decide) (by decide)⟩

/-- Claim C10.  An LCSH subject element with no value child still
contributes an entry to the record's subjects: the undefined value (`none`)
is pushed, so the subjects list is not a list of strings only. -/
theorem claim10_subjects_none_entry (id : Int) (book : BookElem) (r : BookRecord)
    (h : getBook id book = Except.ok r)
    (hs : ∃ s ∈ book.subjects, s.memberOfResource = some "dc:LCSH" ∧ s.value = none) :
    none ∈ r.subjects := by
  obtain ⟨rt, tv, fs, ls, hrt, htv, hfs, hls, hrec⟩ := getBook_ok_elim h
  subst hrec
  show none ∈ jsSort (subjectsLoop book.subjects [])
  rw [subjectsLoop_eq, List.nil_append]
  obtain ⟨s, hsmem, hsc, hsv⟩ := hs
  have hmemL : (none : Option String) ∈ (book.subjects.filter fun s =>
      s.memberOfResource == some "dc:LCSH").map SubjectElem.value := by
    refine List.mem_map.mpr ⟨s, ?_, hsv⟩
    exact List.mem_filter.mpr ⟨hsmem, by simp [hsc]⟩
  have hcount : 0 < ((book.subjects.filter fun s =>
      s.memberOfResource == some "dc:LCSH").map SubjectElem.value).countP fun x => x.isNone :=
    List.countP_pos_iff.mpr ⟨none, hmemL, rfl⟩
  rw [jsSort]
  refine List.mem_append.mpr (Or.inr ?_)
  exact List.mem_replicate.mpr ⟨Nat.pos_iff_ne_zero.mp hcount, rfl⟩

/-- Claim C10, witness: one LCSH subject with no value child yields
`subjects = [none]`. -/
theorem claim10_subjects_none_entry_witness :
    getBook 10 bookC10w = Except.ok recC10w ∧
    (∃ s ∈ bookC10w.subjects, s.memberOfResource = some "dc:LCSH" ∧ s.value = none) ∧
    none ∈ recC10w.subjects :=
  ⟨by decide, by decide,
    claim10_subjects_none_entry 10 bookC10w recC10w (by decide) (by decide)⟩

/-- Any document in the upserted store was already in the store or is the
newly written one. -/
theorem mem_upsertBook (x dto : BookDTO) : ∀ store : List BookDTO,
    x ∈ upsertBook store dto → x ∈ store ∨ x = dto := by
  intro store
  induction store with
  | nil =>
    intro h
    rw [upsertBook] at h
    exact Or.inr (by simpa using h)
  | cons d ds ih =>
    intro h
    rw [upsertBook] at h
    by_cases hd : (d.gutenbergId == dto.gutenbergId) = true
    · rw [if_pos hd] at h
      rcases List.mem_cons.mp h with h | h
      · exact Or.inr h
      · exact Or.inl (List.mem_cons_of_mem _ h)
    · rw [if_neg hd] at h
      rcases List.mem_cons.mp h with h | h
      · exact Or.inl (h ▸ List.mem_cons_self d ds)
      · rcases ih h with h2 | h2
        · exact Or.inl (List.mem_cons_of_mem _ h2)
        · exact Or.inr h2

/-- Claim C9.  The per-record upsert is idempotent, writes the full mapped
document, and on a duplicate-free store leaves exactly one document with the
record's external identifier. -/
theorem claim9_upsert_idempotent (store : List BookDTO) (dto : BookDTO) :
    upsertBook (upsertBook store dto) dto = upsertBook store dto ∧
    dto ∈ upsertBook store dto ∧
    ((store.map BookDTO.gutenbergId).Nodup →
      ((upsertBook store dto).map BookDTO.gutenbergId).Nodup ∧
      (upsertBook store dto).countP (fun d => d.gutenbergId == dto.gutenbergId) = 1) := by
  induction store with
  | nil =>
    refine ⟨?_, ?_, fun _ => ⟨?_, ?_⟩⟩
    · simp [upsertBook]
    · simp [upsertBook]
    · simp [upsertBook]
    · simp [upsertBook, List.countP_cons]
  | cons d ds ih =>
    by_cases hd : (d.gutenbergId == dto.gutenbergId) = true
    · rw [upsertBook, if_pos hd]
      have hgid : d.gutenbergId = dto.gutenbergId := beq_iff_eq.mp hd
      refine ⟨?_, List.mem_cons_self _ _, ?_⟩
      · rw [upsertBook, if_pos (beq_self_eq_true dto.gutenbergId)]
      · intro hnd
        rw [List.map_cons] at hnd
        have hnd2 := List.nodup_cons.mp hnd
        refine ⟨?_, ?_⟩
        · rw [List.map_cons]
          exact List.nodup_cons.mpr ⟨hgid ▸ hnd2.1, hnd2.2⟩
        · rw [List.countP_cons]
          have hzero : ds.countP (fun x => x.gutenbergId == dto.gutenbergId) = 0 := by
            rw [List.countP_eq_zero]
            intro a ha hpa
            have hag : a.gutenbergId = dto.gutenbergId := beq_iff_eq.mp hpa
            exact hnd2.1 (List.mem_map.mpr ⟨a, ha, hag.trans hgid.symm⟩)
          simp [hzero]
    · rw [upsertBook, if_neg hd]
      obtain ⟨ih1, ih2, ih3⟩ := ih
      refine ⟨?_, List.mem_cons_of_mem _ ih2, ?_⟩
      · rw [upsertBook, if_neg hd, ih1]
      · intro hnd
        rw [List.map_cons] at hnd
        have hnd2 := List.nodup_cons.mp hnd
        obtain ⟨ihN, ihC⟩ := ih3 hnd2.2
        have hpd : (d.gutenbergId == dto.gutenbergId) = false := by
          rcases hdb : (d.gutenbergId == dto.gutenbergId) with _ | _
          · rfl
          · exact absurd hdb hd
        refine ⟨?_, ?_⟩
        · rw [List.map_cons]
          refine List.nodup_cons.mpr ⟨?_, ihN⟩
          intro hmem
          obtain ⟨x, hx, hxg⟩ := List.mem_map.mp hmem
          rcases mem_upsertBook x dto ds hx with hxm | hxm
          · exact hnd2.1 (List.mem_map.mpr ⟨x, hxm, hxg⟩)
          · rw [hxm] at hxg
            rw [beq_iff_eq.mpr hxg.symm] at hpd
            exact Bool.noConfusion hpd
        · rw [List.countP_cons]
          simp [hpd, ihC]

/-- Claim C9, witness: upserting a fresh document into a one-document store
twice equals upserting it once, and leaves exactly one document with its
identifier. -/
theorem claim9_upsert_idempotent_witness :
    (storeC9.map BookDTO.gutenbergId).Nodup ∧
    upsertBook (upsertBook storeC9 dtoC9) dtoC9 = upsertBook storeC9 dtoC9 ∧
    ((upsertBook storeC9 dtoC9).map BookDTO.gutenbergId).Nodup ∧
    (upsertBook storeC9 dtoC9).countP (fun d => d.gutenbergId == dtoC9.gutenbergId) = 1 :=
  ⟨by decide, (claim9_upsert_idempotent storeC9 dtoC9).1,
    ((claim9_upsert_idempotent storeC9 dtoC9).2.2 (by decide)).1,
    ((claim9_upsert_idempotent storeC9 dtoC9).2.2 (by decide)).2⟩

end ELibro
